import Mathlib

/-
Verification of the field-visitation and normalization pipeline in
src/converters.rs: the severity mapper, the ansi-strip wrapper, the
field visitor, and the two assemblers (breadcrumb and diagnostic event).

External collaborators that are not part of this repository (the
serde_json encoder, the strip_ansi_escapes crate, the stacktrace
capture call, and the TracingIntegration configuration struct) are
modelled from the specification and clearly marked as such; everything
else is a direct shallow embedding of src/converters.rs.
-/

set_option autoImplicit false
set_option linter.unusedVariables false
set_option linter.unnecessarySeqFocus false
set_option linter.unreachableTactic false
set_option linter.unusedTactic false

namespace SentryTracing

/-! ## Levels (tracing::Level and sentry_core::Level) -/

/-- The five levels of tracing::Level (an external enum, shape fixed by
its use in convert_tracing_level, src/converters.rs lines 11-18). -/
inductive TracingLevel where
  | ERROR
  | WARN
  | INFO
  | DEBUG
  | TRACE
  deriving DecidableEq, Repr

/-- The severities of sentry_core::Level used by the converter
(src/converters.rs lines 11-18; the Fatal variant is never produced). -/
inductive SentryLevel where
  | Error
  | Warning
  | Info
  | Debug
  | Fatal
  deriving DecidableEq, Repr

/-- Embedding of convert_tracing_level (src/converters.rs lines 11-18). -/
def convert_tracing_level : TracingLevel → SentryLevel
  | TracingLevel.ERROR => SentryLevel.Error
  | TracingLevel.WARN => SentryLevel.Warning
  | TracingLevel.INFO => SentryLevel.Info
  | TracingLevel.DEBUG => SentryLevel.Debug
  | TracingLevel.TRACE => SentryLevel.Debug

/-! ## JSON values and the encoder collaborator -/

/-- JSON values as produced for the field kinds the visitor serializes:
numbers (for i64 and u64), booleans, and strings. -/
inductive Json where
  | num (v : Int)
  | bool (b : Bool)
  | str (s : String)
  deriving DecidableEq, Repr

/-- Modelled from the spec: the structured JSON-encoder collaborator
`to_json(value) -> Result<JsonValue, EncodeError>` (serde_json::to_value,
an external crate, not in src/). One encoding operation per value kind
the Visit impl serializes; each may fail with an error message, which is
what the record_json_value error branch handles. -/
structure JsonEncoder where
  encodeI64 : Int → Except String Json
  encodeU64 : Nat → Except String Json
  encodeBool : Bool → Except String Json
  encodeStr : String → Except String Json

/-- Modelled from the spec: the behavior of serde_json::to_value on the
primitive values actually passed by the Visit impl, which encodes them
without failing. -/
def serdeJson : JsonEncoder where
  encodeI64 := fun i => Except.ok (Json.num i)
  encodeU64 := fun n => Except.ok (Json.num (Int.ofNat n))
  encodeBool := fun b => Except.ok (Json.bool b)
  encodeStr := fun s => Except.ok (Json.str s)

/-! ## BTreeMap model -/

/-- Model of BTreeMap insert (std::collections::BTreeMap used for
json_values): replace the value when the key is present, otherwise add
the binding. Keys stay pairwise distinct. -/
def btreeInsert : List (String × Json) → String → Json → List (String × Json)
  | [], k, v => [(k, v)]
  | (k', v') :: rest, k, v =>
      if k' = k then (k, v) :: rest else (k', v') :: btreeInsert rest k v

/-- Model of BTreeMap lookup. -/
def btreeGet : List (String × Json) → String → Option Json
  | [], _ => none
  | (k', v') :: rest, k => if k' = k then some v' else btreeGet rest k

/-! ## Ansi stripping -/

/-- States of the small escape-sequence scanner modelling the external
ansi-strip crate. -/
inductive StripState where
  | ground
  | escape
  | csi
  deriving DecidableEq, Repr

/-- Modelled from the spec: the core of the external strip_ansi_escapes
crate (not in src/), which removes terminal color/escape sequences from
the input. In ground state an ESC byte opens an escape sequence; a CSI
sequence (ESC [) is consumed up to its final byte in the range
0x40..0x7e; any other escape consumes one following character. All
non-escape characters are copied through unchanged. -/
def stripAnsiAux : StripState → List Char → List Char
  | _, [] => []
  | StripState.ground, c :: rest =>
      if c = '\x1b' then stripAnsiAux StripState.escape rest
      else c :: stripAnsiAux StripState.ground rest
  | StripState.escape, c :: rest =>
      if c = '[' then stripAnsiAux StripState.csi rest
      else stripAnsiAux StripState.ground rest
  | StripState.csi, c :: rest =>
      if 0x40 ≤ c.toNat ∧ c.toNat ≤ 0x7e then stripAnsiAux StripState.ground rest
      else stripAnsiAux StripState.csi rest

/-- Embedding of strip_ansi_codes_from_string (src/converters.rs lines
90-98), with its two external fallible steps supplied as collaborator
parameters: the ansi-strip crate call (strip_ansi_escapes::strip, which
returns a Result of stripped bytes) and the UTF-8 re-decoding of those
bytes (std::str::from_utf8). On failure of either step the original
string is returned unmodified. -/
def strip_ansi_codes_from_string {β : Type} (stripStep : String → Except Unit β)
    (utf8Step : β → Except Unit String) (string : String) : String :=
  match stripStep string with
  | Except.ok stripped_bytes =>
      match utf8Step stripped_bytes with
      | Except.ok stripped_string => stripped_string
      | Except.error _ => string
  | Except.error _ => string

/-- Modelled from the spec: the external strip_ansi_escapes::strip call
on a well-formed input, running the escape scanner and succeeding. -/
def stripAnsiCollab (s : String) : Except Unit (List Char) :=
  Except.ok (stripAnsiAux StripState.ground s.data)

/-- Modelled from the spec: the UTF-8 re-decoding step, which succeeds
on the scanner output. -/
def utf8Collab (l : List Char) : Except Unit String :=
  Except.ok (String.mk l)

/-- strip_ansi_codes_from_string instantiated with the modelled
collaborators on their happy path: the stripping actually performed on
string values when strip_ansi_escapes is configured. -/
def stripAnsiCodes (s : String) : String :=
  strip_ansi_codes_from_string stripAnsiCollab utf8Collab s

/-! ## Events and fields -/

/-- The runtime value kinds a field can carry, one per record_* callback
of the tracing::field::Visit impl (src/converters.rs lines 100-157).
Structured errors and debug values reach the visitor only through their
debug formatting, so they are carried as that formatted string. -/
inductive FieldValue where
  | i64 (v : Int)
  | u64 (v : Nat)
  | bool (v : Bool)
  | str (v : String)
  | error (formatted : String)
  | debug (formatted : String)
  deriving DecidableEq, Repr

/-- A named field attached to one tracing event. -/
structure TracingField where
  name : String
  value : FieldValue
  deriving DecidableEq, Repr

/-- The parts of a tracing::Event the converter reads: its level, its
metadata target (the logical source string), its optional module path,
and its fields in visitation order. -/
structure TracingEvent where
  level : TracingLevel
  target : String
  module_path : Option String
  fields : List TracingField
  deriving DecidableEq, Repr

/-- Modelled from the spec: the TracingIntegration configuration struct
(defined outside src/converters.rs), carrying the two boolean options
read by this file: strip_ansi_escapes and attach_stacktraces. -/
structure TracingIntegration where
  strip_ansi_escapes : Bool
  attach_stacktraces : Bool
  deriving DecidableEq, Repr

/-! ## The field visitor -/

/-- Embedding of FieldVisitorConfig (src/converters.rs lines 20-23). -/
structure FieldVisitorConfig where
  strip_ansi_escapes : Bool
  deriving DecidableEq, Repr

/-- Embedding of the Default impl for FieldVisitorConfig
(src/converters.rs lines 25-31). -/
def FieldVisitorConfig.default : FieldVisitorConfig :=
  { strip_ansi_escapes := false }

/-- Embedding of the From<&TracingIntegration> impl for
FieldVisitorConfig (src/converters.rs lines 33-39). -/
def FieldVisitorConfig.fromIntegration (integration : TracingIntegration) : FieldVisitorConfig :=
  { strip_ansi_escapes := integration.strip_ansi_escapes }

/-- Embedding of FieldVisitorResult (src/converters.rs lines 41-46). -/
structure FieldVisitorResult where
  display_values : List String
  json_values : List (String × Json)
  log_target : Option String
  deriving DecidableEq, Repr

/-- Embedding of the derived Default for FieldVisitorResult. -/
def FieldVisitorResult.default : FieldVisitorResult :=
  { display_values := [], json_values := [], log_target := none }

/-- Embedding of FieldVisitorResult::message (src/converters.rs lines
49-51): the display values joined with newline. -/
def FieldVisitorResult.message (r : FieldVisitorResult) : String :=
  String.intercalate "\n" r.display_values

/-- Embedding of FieldVisitor (src/converters.rs lines 54-58). -/
structure FieldVisitor where
  config : FieldVisitorConfig
  result : FieldVisitorResult
  deriving DecidableEq, Repr

/-- Embedding of FieldVisitor::record_json_value (src/converters.rs
lines 71-81): on a successful serialization the value is inserted into
json_values under the field name; on failure the state is unchanged and
the error is reported through the tracing::error! side channel, modelled
as the optional second component. -/
def FieldVisitor.record_json_value (v : FieldVisitor) (fieldName : String)
    (serialized : Except String Json) : FieldVisitor × Option String :=
  match serialized with
  | Except.ok json_value =>
      ({ v with result := { v.result with
          json_values := btreeInsert v.result.json_values fieldName json_value } }, none)
  | Except.error err =>
      (v, some ("Error while serializing the \"" ++ fieldName ++ "\" field to json: " ++ err))

/-- Embedding of FieldVisitor::record_message (src/converters.rs lines
83-85): pushes "name=value" onto display_values. -/
def FieldVisitor.record_message (v : FieldVisitor) (fieldName : String)
    (value : String) : FieldVisitor :=
  { v with result := { v.result with
      display_values := v.result.display_values ++ [fieldName ++ "=" ++ value] } }

/-- Embedding of the Visit impl record_i64 (src/converters.rs lines
102-105): serialize the integer, then push its debug formatting. -/
def FieldVisitor.record_i64 (enc : JsonEncoder) (v : FieldVisitor) (fieldName : String)
    (value : Int) : FieldVisitor × Option String :=
  let step := v.record_json_value fieldName (enc.encodeI64 value)
  (step.1.record_message fieldName (toString value), step.2)

/-- Embedding of the Visit impl record_u64 (src/converters.rs lines
108-111). -/
def FieldVisitor.record_u64 (enc : JsonEncoder) (v : FieldVisitor) (fieldName : String)
    (value : Nat) : FieldVisitor × Option String :=
  let step := v.record_json_value fieldName (enc.encodeU64 value)
  (step.1.record_message fieldName (toString value), step.2)

/-- Embedding of the Visit impl record_bool (src/converters.rs lines
114-117). -/
def FieldVisitor.record_bool (enc : JsonEncoder) (v : FieldVisitor) (fieldName : String)
    (value : Bool) : FieldVisitor × Option String :=
  let step := v.record_json_value fieldName (enc.encodeBool value)
  (step.1.record_message fieldName (toString value), step.2)

/-- Embedding of the Visit impl record_str (src/converters.rs lines
119-132): the value is ansi-stripped when configured; when the field
name is "log.target" the (possibly stripped) value is also captured into
the log_target slot; the value is then recorded into json_values and
display_values like any other field. -/
def FieldVisitor.record_str (enc : JsonEncoder) (v : FieldVisitor) (fieldName : String)
    (value : String) : FieldVisitor × Option String :=
  let value' := if v.config.strip_ansi_escapes then stripAnsiCodes value else value
  let v' := if fieldName = "log.target" then
      { v with result := { v.result with log_target := some value' } }
    else v
  let step := v'.record_json_value fieldName (enc.encodeStr value')
  (step.1.record_message fieldName value', step.2)

/-- Embedding of the Visit impl record_error (src/converters.rs lines
134-144): the debug-formatted error message, ansi-stripped when
configured, recorded as a JSON string and as the display value. -/
def FieldVisitor.record_error (enc : JsonEncoder) (v : FieldVisitor) (fieldName : String)
    (formatted_value : String) : FieldVisitor × Option String :=
  let message_string := if v.config.strip_ansi_escapes then stripAnsiCodes formatted_value
    else formatted_value
  let step := v.record_json_value fieldName (enc.encodeStr message_string)
  (step.1.record_message fieldName message_string, step.2)

/-- Embedding of the Visit impl record_debug (src/converters.rs lines
146-156), identical in shape to record_error. -/
def FieldVisitor.record_debug (enc : JsonEncoder) (v : FieldVisitor) (fieldName : String)
    (formatted_value : String) : FieldVisitor × Option String :=
  let message_string := if v.config.strip_ansi_escapes then stripAnsiCodes formatted_value
    else formatted_value
  let step := v.record_json_value fieldName (enc.encodeStr message_string)
  (step.1.record_message fieldName message_string, step.2)

/-- The per-field dispatch the tracing framework performs when driving a
Visit impl: it calls the record_* callback matching the runtime kind of
the field value (spec section 6, consumed collaborator (a)). -/
def FieldVisitor.recordField (enc : JsonEncoder) (v : FieldVisitor)
    (f : TracingField) : FieldVisitor × Option String :=
  match f.value with
  | FieldValue.i64 i => FieldVisitor.record_i64 enc v f.name i
  | FieldValue.u64 n => FieldVisitor.record_u64 enc v f.name n
  | FieldValue.bool b => FieldVisitor.record_bool enc v f.name b
  | FieldValue.str s => FieldVisitor.record_str enc v f.name s
  | FieldValue.error s => FieldVisitor.record_error enc v f.name s
  | FieldValue.debug s => FieldVisitor.record_debug enc v f.name s

/-- Driving the visitor over the full field list in event order
(event.record(&mut visitor)), collecting the side diagnostics emitted
along the way. -/
def visitFields (enc : JsonEncoder) : FieldVisitor → List TracingField → FieldVisitor × List String
  | v, [] => (v, [])
  | v, f :: rest =>
      let step := FieldVisitor.recordField enc v f
      let next := visitFields enc step.1 rest
      (next.1, step.2.toList ++ next.2)

/-- Embedding of FieldVisitor::visit_event (src/converters.rs lines
61-69): a fresh visitor with the given config is driven over the event
fields and its result returned, together with the emitted diagnostics. -/
def FieldVisitor.visit_event (enc : JsonEncoder) (event : TracingEvent)
    (config : FieldVisitorConfig) : FieldVisitorResult × List String :=
  let visitor : FieldVisitor := { config := config, result := FieldVisitorResult.default }
  let run := visitFields enc visitor event.fields
  (run.1.result, run.2)

/-! ## Output records and assemblers -/

/-- Modelled from the spec: an opaque stacktrace value as returned by
the external capture collaborator (sentry_backtrace::current_stacktrace,
not in src/). -/
structure Stacktrace where
  frames : List String
  deriving DecidableEq, Repr

/-- The Breadcrumb fields populated by breadcrumb_from_event
(src/converters.rs lines 163-170); the remaining protocol fields are
left at their defaults and never touched. -/
structure Breadcrumb where
  ty : String
  level : SentryLevel
  category : Option String
  message : Option String
  data : List (String × Json)
  deriving DecidableEq, Repr

/-- The Exception fields populated by convert_tracing_event
(src/converters.rs lines 194-204); the rest stay at their defaults. -/
structure SentryException where
  ty : String
  value : Option String
  stacktrace : Option Stacktrace
  module : Option String
  deriving DecidableEq, Repr

/-- The Event fields populated by convert_tracing_event
(src/converters.rs lines 191-207); the rest stay at their defaults. -/
structure SentryEvent where
  logger : Option String
  level : SentryLevel
  exception : List SentryException
  deriving DecidableEq, Repr

/-- Embedding of breadcrumb_from_event (src/converters.rs lines
160-171). The unused subscriber context parameter is omitted; the
JSON-encoder collaborator is passed explicitly. -/
def breadcrumb_from_event (enc : JsonEncoder) (event : TracingEvent)
    (integration : TracingIntegration) : Breadcrumb :=
  let visitor_result := (FieldVisitor.visit_event enc event
    (FieldVisitorConfig.fromIntegration integration)).1
  { ty := "log"
    level := convert_tracing_level event.level
    category := some event.target
    message := some visitor_result.message
    data := visitor_result.json_values }

/-- Embedding of convert_tracing_event (src/converters.rs lines
177-208). The external stack-capture collaborator current_stacktrace is
passed as the cur parameter (its result when called); the unused
subscriber context parameter is omitted. -/
def convert_tracing_event (enc : JsonEncoder) (cur : Option Stacktrace)
    (event : TracingEvent) (integration : TracingIntegration) : SentryEvent :=
  let visitor_result := (FieldVisitor.visit_event enc event
    (FieldVisitorConfig.fromIntegration integration)).1
  let exception_type := match visitor_result.log_target with
    | some log_target => "[" ++ log_target ++ "] log event"
    | none => "[" ++ event.target ++ "] tracing event"
  { logger := some "sentry-tracing"
    level := convert_tracing_level event.level
    exception := [{ ty := exception_type
                    value := some visitor_result.message
                    stacktrace := if integration.attach_stacktraces then cur else none
                    module := event.module_path }] }

/-! ## Characterization helpers

The following definitions describe, field by field, the effect of one
recordField step; they are related to the embedded visitor code by the
characterization lemmas below and are the vocabulary of the claims. -/

/-- The serialization attempt recordField hands to record_json_value for
one field: the encoder applied to the value the Visit impl serializes
(for string, error and debug fields, the possibly ansi-stripped text). -/
def serializationAttempt (enc : JsonEncoder) (cfg : FieldVisitorConfig)
    (f : TracingField) : Except String Json :=
  match f.value with
  | FieldValue.i64 i => enc.encodeI64 i
  | FieldValue.u64 n => enc.encodeU64 n
  | FieldValue.bool b => enc.encodeBool b
  | FieldValue.str s => enc.encodeStr (if cfg.strip_ansi_escapes then stripAnsiCodes s else s)
  | FieldValue.error s => enc.encodeStr (if cfg.strip_ansi_escapes then stripAnsiCodes s else s)
  | FieldValue.debug s => enc.encodeStr (if cfg.strip_ansi_escapes then stripAnsiCodes s else s)

/-- The display fragment recordField pushes for one field:
"name=rendered-value" with the rendering of the Visit impl. -/
def displayRendering (cfg : FieldVisitorConfig) (f : TracingField) : String :=
  match f.value with
  | FieldValue.i64 i => f.name ++ "=" ++ toString i
  | FieldValue.u64 n => f.name ++ "=" ++ toString n
  | FieldValue.bool b => f.name ++ "=" ++ toString b
  | FieldValue.str s =>
      f.name ++ "=" ++ (if cfg.strip_ansi_escapes then stripAnsiCodes s else s)
  | FieldValue.error s =>
      f.name ++ "=" ++ (if cfg.strip_ansi_escapes then stripAnsiCodes s else s)
  | FieldValue.debug s =>
      f.name ++ "=" ++ (if cfg.strip_ansi_escapes then stripAnsiCodes s else s)

/-- The diagnostic message record_json_value emits when a serialization
attempt fails. -/
def serializationDiag (fieldName err : String) : String :=
  "Error while serializing the \"" ++ fieldName ++ "\" field to json: " ++ err

/-- The effect of one recordField step on the json_values entry for one
name: a successful attempt for a field of that name overwrites it, a
failed attempt or a different name leaves it alone. -/
def jsonStep (enc : JsonEncoder) (cfg : FieldVisitorConfig) (f : TracingField)
    (name : String) (init : Option Json) : Option Json :=
  if f.name = name then
    match serializationAttempt enc cfg f with
    | Except.ok j => some j
    | Except.error _ => init
  else init

/-- The value btreeGet returns for one name after a field list has been
visited, as a function of its value before. -/
def jsonAfter (enc : JsonEncoder) (cfg : FieldVisitorConfig) (name : String) :
    List TracingField → Option Json → Option Json
  | [], init => init
  | f :: rest, init => jsonAfter enc cfg name rest (jsonStep enc cfg f name init)

/-- The effect of one recordField step on the log_target slot: only a
string-valued field named "log.target" writes it. -/
def logTargetStep (cfg : FieldVisitorConfig) (f : TracingField)
    (init : Option String) : Option String :=
  match f.value with
  | FieldValue.str s =>
      if f.name = "log.target" then
        some (if cfg.strip_ansi_escapes then stripAnsiCodes s else s)
      else init
  | _ => init

/-- The log_target slot after a field list has been visited, as a
function of its value before. -/
def logTargetAfter (cfg : FieldVisitorConfig) :
    List TracingField → Option String → Option String
  | [], init => init
  | f :: rest, init => logTargetAfter cfg rest (logTargetStep cfg f init)

/-! ## BTreeMap model lemmas -/

theorem btreeGet_insert_self (m : List (String × Json)) (k : String) (v : Json) :
    btreeGet (btreeInsert m k v) k = some v := by
  induction m with
  | nil => simp [btreeInsert, btreeGet]
  | cons p rest ih =>
      by_cases h : p.1 = k
      · simp [btreeInsert, btreeGet, h]
      · simp [btreeInsert, btreeGet, h, ih]

theorem btreeGet_insert_ne (m : List (String × Json)) (k k' : String) (v : Json)
    (h : k' ≠ k) : btreeGet (btreeInsert m k v) k' = btreeGet m k' := by
  induction m with
  | nil => simp [btreeInsert, btreeGet, Ne.symm h]
  | cons p rest ih =>
      rcases p with ⟨pk, pv⟩
      by_cases hk : pk = k
      · subst hk
        simp [btreeInsert, btreeGet, Ne.symm h]
      · simp only [btreeInsert, btreeGet, if_neg hk]
        rw [ih]

theorem btreeInsert_length_le (m : List (String × Json)) (k : String) (v : Json) :
    (btreeInsert m k v).length ≤ m.length + 1 := by
  induction m with
  | nil => simp [btreeInsert]
  | cons p rest ih =>
      by_cases h : p.1 = k
      · simp [btreeInsert, h]
      · simpa [btreeInsert, h] using Nat.succ_le_succ ih

/-! ## Single-step characterization lemmas -/

@[simp]
theorem record_message_config (v : FieldVisitor) (n s : String) :
    (FieldVisitor.record_message v n s).config = v.config := rfl

@[simp]
theorem record_message_json (v : FieldVisitor) (n s : String) :
    (FieldVisitor.record_message v n s).result.json_values = v.result.json_values := rfl

@[simp]
theorem record_message_log_target (v : FieldVisitor) (n s : String) :
    (FieldVisitor.record_message v n s).result.log_target = v.result.log_target := rfl

@[simp]
theorem record_message_display (v : FieldVisitor) (n s : String) :
    (FieldVisitor.record_message v n s).result.display_values =
      v.result.display_values ++ [n ++ "=" ++ s] := rfl

@[simp]
theorem record_json_value_config (v : FieldVisitor) (n : String) (ser : Except String Json) :
    ((FieldVisitor.record_json_value v n ser).1).config = v.config := by
  cases ser <;> rfl

@[simp]
theorem record_json_value_display (v : FieldVisitor) (n : String) (ser : Except String Json) :
    ((FieldVisitor.record_json_value v n ser).1).result.display_values =
      v.result.display_values := by
  cases ser <;> rfl

@[simp]
theorem record_json_value_log_target (v : FieldVisitor) (n : String) (ser : Except String Json) :
    ((FieldVisitor.record_json_value v n ser).1).result.log_target =
      v.result.log_target := by
  cases ser <;> rfl

theorem record_json_value_json (v : FieldVisitor) (n : String) (ser : Except String Json) :
    ((FieldVisitor.record_json_value v n ser).1).result.json_values =
      match ser with
      | Except.ok j => btreeInsert v.result.json_values n j
      | Except.error _ => v.result.json_values := by
  cases ser <;> rfl

theorem record_json_value_snd (v : FieldVisitor) (n : String) (ser : Except String Json) :
    (FieldVisitor.record_json_value v n ser).2 =
      match ser with
      | Except.ok _ => none
      | Except.error err => some (serializationDiag n err) := by
  cases ser <;> rfl

theorem recordField_config (enc : JsonEncoder) (v : FieldVisitor) (f : TracingField) :
    ((FieldVisitor.recordField enc v f).1).config = v.config := by
  rcases f with ⟨name, val⟩
  cases val <;>
    simp [FieldVisitor.recordField, FieldVisitor.record_i64, FieldVisitor.record_u64,
      FieldVisitor.record_bool, FieldVisitor.record_str, FieldVisitor.record_error,
      FieldVisitor.record_debug] <;>
    split <;> simp

theorem recordField_display (enc : JsonEncoder) (v : FieldVisitor) (f : TracingField) :
    ((FieldVisitor.recordField enc v f).1).result.display_values =
      v.result.display_values ++ [displayRendering v.config f] := by
  rcases f with ⟨name, val⟩
  cases val <;>
    simp [FieldVisitor.recordField, FieldVisitor.record_i64, FieldVisitor.record_u64,
      FieldVisitor.record_bool, FieldVisitor.record_str, FieldVisitor.record_error,
      FieldVisitor.record_debug, displayRendering] <;>
    split <;> simp

theorem recordField_json (enc : JsonEncoder) (v : FieldVisitor) (f : TracingField) :
    ((FieldVisitor.recordField enc v f).1).result.json_values =
      match serializationAttempt enc v.config f with
      | Except.ok j => btreeInsert v.result.json_values f.name j
      | Except.error _ => v.result.json_values := by
  rcases f with ⟨name, val⟩
  cases val <;>
    simp only [FieldVisitor.recordField, FieldVisitor.record_i64, FieldVisitor.record_u64,
      FieldVisitor.record_bool, FieldVisitor.record_str, FieldVisitor.record_error,
      FieldVisitor.record_debug, serializationAttempt, record_message_json,
      record_json_value_json] <;>
    split <;> (try rfl) <;> split <;> rfl

theorem recordField_log_target (enc : JsonEncoder) (v : FieldVisitor) (f : TracingField) :
    ((FieldVisitor.recordField enc v f).1).result.log_target =
      logTargetStep v.config f v.result.log_target := by
  rcases f with ⟨name, val⟩
  cases val <;>
    simp only [FieldVisitor.recordField, FieldVisitor.record_i64, FieldVisitor.record_u64,
      FieldVisitor.record_bool, FieldVisitor.record_str, FieldVisitor.record_error,
      FieldVisitor.record_debug, record_message_log_target, record_json_value_log_target,
      logTargetStep] <;>
    split <;> simp

theorem recordField_json_get (enc : JsonEncoder) (v : FieldVisitor) (f : TracingField)
    (name : String) :
    btreeGet ((FieldVisitor.recordField enc v f).1).result.json_values name =
      jsonStep enc v.config f name (btreeGet v.result.json_values name) := by
  rw [recordField_json]
  unfold jsonStep
  cases hser : serializationAttempt enc v.config f with
  | ok j =>
      by_cases hname : f.name = name
      · subst hname; simp [btreeGet_insert_self]
      · simp [hname, btreeGet_insert_ne _ _ _ _ (Ne.symm hname)]
  | error e => simp

theorem recordField_diag (enc : JsonEncoder) (v : FieldVisitor) (f : TracingField) :
    (FieldVisitor.recordField enc v f).2 =
      match serializationAttempt enc v.config f with
      | Except.ok _ => none
      | Except.error err => some (serializationDiag f.name err) := by
  rcases f with ⟨name, val⟩
  cases val <;>
    simp only [FieldVisitor.recordField, FieldVisitor.record_i64, FieldVisitor.record_u64,
      FieldVisitor.record_bool, FieldVisitor.record_str, FieldVisitor.record_error,
      FieldVisitor.record_debug, serializationAttempt, record_json_value_snd] <;>
    split <;> simp

/-! ## Fold-level lemmas about visitFields -/

theorem visitFields_config (enc : JsonEncoder) (fields : List TracingField) :
    ∀ v : FieldVisitor, ((visitFields enc v fields).1).config = v.config := by
  induction fields with
  | nil => intro v; rfl
  | cons f rest ih =>
      intro v
      simp only [visitFields]
      rw [ih, recordField_config]

theorem visitFields_display (enc : JsonEncoder) (fields : List TracingField) :
    ∀ v : FieldVisitor, ((visitFields enc v fields).1).result.display_values =
      v.result.display_values ++ fields.map (displayRendering v.config) := by
  induction fields with
  | nil => intro v; simp [visitFields]
  | cons f rest ih =>
      intro v
      simp only [visitFields, List.map_cons]
      rw [ih, recordField_display, recordField_config]
      simp

theorem visitFields_json_get (enc : JsonEncoder) (fields : List TracingField) (name : String) :
    ∀ v : FieldVisitor,
      btreeGet ((visitFields enc v fields).1).result.json_values name =
        jsonAfter enc v.config name fields (btreeGet v.result.json_values name) := by
  induction fields with
  | nil => intro v; rfl
  | cons f rest ih =>
      intro v
      simp only [visitFields, jsonAfter]
      rw [ih, recordField_config, recordField_json_get]

theorem visitFields_json_length (enc : JsonEncoder) (fields : List TracingField) :
    ∀ v : FieldVisitor, ((visitFields enc v fields).1).result.json_values.length ≤
      v.result.json_values.length + fields.length := by
  induction fields with
  | nil => intro v; simp [visitFields]
  | cons f rest ih =>
      intro v
      simp only [visitFields, List.length_cons]
      have h1 := ih (FieldVisitor.recordField enc v f).1
      have h2 : ((FieldVisitor.recordField enc v f).1).result.json_values.length ≤
          v.result.json_values.length + 1 := by
        rw [recordField_json]
        cases hser : serializationAttempt enc v.config f with
        | ok j => exact btreeInsert_length_le _ _ _
        | error e => exact Nat.le_succ _
      omega

theorem visitFields_log_target (enc : JsonEncoder) (fields : List TracingField) :
    ∀ v : FieldVisitor, ((visitFields enc v fields).1).result.log_target =
      logTargetAfter v.config fields v.result.log_target := by
  induction fields with
  | nil => intro v; rfl
  | cons f rest ih =>
      intro v
      simp only [visitFields, logTargetAfter]
      rw [ih, recordField_config, recordField_log_target]

theorem visitFields_append (enc : JsonEncoder) (l₁ l₂ : List TracingField) :
    ∀ v : FieldVisitor,
      (visitFields enc v (l₁ ++ l₂)).1 = (visitFields enc (visitFields enc v l₁).1 l₂).1 := by
  induction l₁ with
  | nil => intro v; rfl
  | cons f rest ih =>
      intro v
      simp only [List.cons_append, visitFields]
      exact ih _

theorem visitFields_diag_mem (enc : JsonEncoder) :
    ∀ (fields : List TracingField) (v : FieldVisitor) (f : TracingField) (e : String),
      f ∈ fields → serializationAttempt enc v.config f = Except.error e →
      (visitFields enc v fields).2 ≠ [] := by
  intro fields
  induction fields with
  | nil => intro v f e hf _; exact absurd hf (List.not_mem_nil f)
  | cons g rest ih =>
      intro v f e hf hser
      simp only [visitFields]
      rcases List.mem_cons.mp hf with rfl | hf'
      · simp [recordField_diag, hser]
      · have hne := ih (FieldVisitor.recordField enc v g).1 f e hf'
          (by rw [recordField_config]; exact hser)
        intro hemp
        rcases List.append_eq_nil.mp hemp with ⟨_, h2⟩
        exact hne h2

/-! ## Lemmas about jsonAfter and logTargetAfter -/

theorem jsonAfter_append (enc : JsonEncoder) (cfg : FieldVisitorConfig) (name : String)
    (l₁ l₂ : List TracingField) :
    ∀ init, jsonAfter enc cfg name (l₁ ++ l₂) init =
      jsonAfter enc cfg name l₂ (jsonAfter enc cfg name l₁ init) := by
  induction l₁ with
  | nil => intro init; rfl
  | cons f rest ih =>
      intro init
      simp only [List.cons_append, jsonAfter]
      exact ih _

theorem jsonAfter_of_fail (enc : JsonEncoder) (cfg : FieldVisitorConfig) (name : String) :
    ∀ fields : List TracingField,
      (∀ f ∈ fields, f.name = name → ∃ e, serializationAttempt enc cfg f = Except.error e) →
      ∀ init, jsonAfter enc cfg name fields init = init := by
  intro fields
  induction fields with
  | nil => intro _ init; rfl
  | cons f rest ih =>
      intro h init
      simp only [jsonAfter]
      rw [ih (fun g hg hn => h g (List.mem_cons_of_mem f hg) hn)]
      unfold jsonStep
      by_cases hname : f.name = name
      · rcases h f (List.mem_cons_self f rest) hname with ⟨e, he⟩
        simp [hname, he]
      · simp [hname]

theorem jsonAfter_some (enc : JsonEncoder) (cfg : FieldVisitorConfig) (name : String) :
    ∀ (fields : List TracingField) (j : Json),
      ∃ j', jsonAfter enc cfg name fields (some j) = some j' := by
  intro fields
  induction fields with
  | nil => intro j; exact ⟨j, rfl⟩
  | cons f rest ih =>
      intro j
      simp only [jsonAfter]
      unfold jsonStep
      by_cases hname : f.name = name
      · cases hser : serializationAttempt enc cfg f with
        | ok jv => simpa [hname, hser] using ih jv
        | error e => simpa [hname, hser] using ih j
      · simpa [hname] using ih j

theorem logTargetAfter_append (cfg : FieldVisitorConfig) (l₁ l₂ : List TracingField) :
    ∀ init, logTargetAfter cfg (l₁ ++ l₂) init =
      logTargetAfter cfg l₂ (logTargetAfter cfg l₁ init) := by
  induction l₁ with
  | nil => intro init; rfl
  | cons f rest ih =>
      intro init
      simp only [List.cons_append, logTargetAfter]
      exact ih _

theorem logTargetAfter_of_skip (cfg : FieldVisitorConfig) :
    ∀ fields : List TracingField,
      (∀ f ∈ fields, ∀ s, f.value = FieldValue.str s → f.name ≠ "log.target") →
      ∀ init, logTargetAfter cfg fields init = init := by
  intro fields
  induction fields with
  | nil => intro _ init; rfl
  | cons f rest ih =>
      intro h init
      simp only [logTargetAfter]
      rw [ih (fun g hg => h g (List.mem_cons_of_mem f hg))]
      unfold logTargetStep
      rcases f with ⟨name, val⟩
      cases val with
      | str s =>
          have := h ⟨name, FieldValue.str s⟩ (List.mem_cons_self _ rest) s rfl
          simp at this
          simp [this]
      | i64 i => rfl
      | u64 n => rfl
      | bool b => rfl
      | error s => rfl
      | debug s => rfl

/-! ## Ansi stripper lemmas -/

theorem stripAnsiAux_no_esc (l : List Char) :
    ∀ st : StripState, '\x1b' ∉ stripAnsiAux st l := by
  induction l with
  | nil => intro st; cases st <;> simp [stripAnsiAux]
  | cons c rest ih =>
      intro st
      cases st with
      | ground =>
          by_cases h : c = '\x1b'
          · simpa [stripAnsiAux, h] using ih StripState.escape
          · simp only [stripAnsiAux, if_neg h, List.mem_cons]
            push_neg
            exact ⟨Ne.symm h, ih StripState.ground⟩
      | escape =>
          by_cases h : c = '['
          · simpa [stripAnsiAux, h] using ih StripState.csi
          · simpa [stripAnsiAux, h] using ih StripState.ground
      | csi =>
          by_cases h : 0x40 ≤ c.toNat ∧ c.toNat ≤ 0x7e
          · simpa [stripAnsiAux, h] using ih StripState.ground
          · simpa [stripAnsiAux, h] using ih StripState.csi

theorem stripAnsiAux_ground_of_no_esc (l : List Char) (h : '\x1b' ∉ l) :
    stripAnsiAux StripState.ground l = l := by
  induction l with
  | nil => rfl
  | cons c rest ih =>
      simp only [List.mem_cons] at h
      push_neg at h
      simp only [stripAnsiAux, if_neg (Ne.symm h.1)]
      rw [ih h.2]

theorem stripAnsiCodes_eq (s : String) :
    stripAnsiCodes s = String.mk (stripAnsiAux StripState.ground s.data) := rfl

/-! ## Lemmas about visit_event -/

theorem visit_event_result (enc : JsonEncoder) (event : TracingEvent)
    (config : FieldVisitorConfig) :
    (FieldVisitor.visit_event enc event config).1 =
      ((visitFields enc { config := config, result := FieldVisitorResult.default }
        event.fields).1).result := rfl

theorem visit_event_diag (enc : JsonEncoder) (event : TracingEvent)
    (config : FieldVisitorConfig) :
    (FieldVisitor.visit_event enc event config).2 =
      (visitFields enc { config := config, result := FieldVisitorResult.default }
        event.fields).2 := rfl

theorem visit_event_display (enc : JsonEncoder) (event : TracingEvent)
    (config : FieldVisitorConfig) :
    ((FieldVisitor.visit_event enc event config).1).display_values =
      event.fields.map (displayRendering config) := by
  rw [visit_event_result, visitFields_display]
  simp [FieldVisitorResult.default]

theorem visit_event_json_get (enc : JsonEncoder) (event : TracingEvent)
    (config : FieldVisitorConfig) (name : String) :
    btreeGet ((FieldVisitor.visit_event enc event config).1).json_values name =
      jsonAfter enc config name event.fields none := by
  rw [visit_event_result, visitFields_json_get]
  rfl

theorem visit_event_json_length (enc : JsonEncoder) (event : TracingEvent)
    (config : FieldVisitorConfig) :
    ((FieldVisitor.visit_event enc event config).1).json_values.length ≤
      event.fields.length := by
  have h := visitFields_json_length enc event.fields
    { config := config, result := FieldVisitorResult.default }
  simpa [FieldVisitorResult.default] using h

theorem visit_event_log_target (enc : JsonEncoder) (event : TracingEvent)
    (config : FieldVisitorConfig) :
    ((FieldVisitor.visit_event enc event config).1).log_target =
      logTargetAfter config event.fields none := by
  rw [visit_event_result, visitFields_log_target]
  rfl

theorem visit_event_json_last (enc : JsonEncoder) (event : TracingEvent)
    (config : FieldVisitorConfig) (name : String) (fs₁ fs₂ : List TracingField)
    (f : TracingField) (j : Json)
    (hsplit : event.fields = fs₁ ++ f :: fs₂) (hname : f.name = name)
    (hlast : ∀ g ∈ fs₂, g.name ≠ name)
    (hser : serializationAttempt enc config f = Except.ok j) :
    btreeGet ((FieldVisitor.visit_event enc event config).1).json_values name = some j := by
  rw [visit_event_json_get, hsplit, jsonAfter_append]
  simp only [jsonAfter]
  rw [jsonAfter_of_fail enc config name fs₂
    (fun g hg hn => absurd hn (hlast g hg))]
  unfold jsonStep
  simp [hname, hser]

/-! ## Claim theorems -/

/-- Claim C1: for every event and any encoder behavior, each visited
field appends exactly one entry to display_values (order-preserving,
duplicates allowed) and at most one entry to json_values, so the length
of display_values equals the number of fields visited regardless of
whether json encoding succeeded for any individual field. -/
theorem c1_one_display_entry_per_field (enc : JsonEncoder) (event : TracingEvent)
    (config : FieldVisitorConfig) :
    ((FieldVisitor.visit_event enc event config).1).display_values.length =
        event.fields.length ∧
    ((FieldVisitor.visit_event enc event config).1).json_values.length ≤
        event.fields.length ∧
    (∀ (v : FieldVisitor) (f : TracingField),
      ((FieldVisitor.recordField enc v f).1).result.display_values =
        v.result.display_values ++ [displayRendering v.config f]) ∧
    (∀ (v : FieldVisitor) (f : TracingField),
      ((FieldVisitor.recordField enc v f).1).result.json_values.length ≤
        v.result.json_values.length + 1) := by
  refine ⟨?_, visit_event_json_length enc event config, recordField_display enc, ?_⟩
  · rw [visit_event_display]
    exact List.length_map _ _
  · intro v f
    rw [recordField_json]
    cases hser : serializationAttempt enc v.config f with
    | ok j => exact btreeInsert_length_le _ _ _
    | error e => exact Nat.le_succ _

/-- Claim C4: the severity mapper is a pure total function over all
defined input levels: error maps to Error, warn to Warning, info to
Info, and both debug and trace collapse to the single Debug severity. -/
theorem c4_severity_mapping :
    convert_tracing_level TracingLevel.ERROR = SentryLevel.Error ∧
    convert_tracing_level TracingLevel.WARN = SentryLevel.Warning ∧
    convert_tracing_level TracingLevel.INFO = SentryLevel.Info ∧
    convert_tracing_level TracingLevel.DEBUG = SentryLevel.Debug ∧
    convert_tracing_level TracingLevel.TRACE = SentryLevel.Debug :=
  ⟨rfl, rfl, rfl, rfl, rfl⟩

/-- Claim C7: with attach_stacktraces false the produced diagnostic
event has no stack trace even when the capture collaborator would
return one; with the collaborator returning none (any configuration,
attach_stacktraces true included) it also has no stack trace, and in
both cases a fully-formed record is produced. -/
theorem c7_stacktrace_policy (enc : JsonEncoder) (cur : Option Stacktrace)
    (event : TracingEvent) (strip : Bool) (integration : TracingIntegration) :
    (convert_tracing_event enc cur event
        { strip_ansi_escapes := strip, attach_stacktraces := false }).exception.map
      SentryException.stacktrace = [none] ∧
    (convert_tracing_event enc none event integration).exception.map
      SentryException.stacktrace = [none] := by
  constructor
  · simp [convert_tracing_event]
  · simp [convert_tracing_event]

/-- Claim C8: for every input string, when the ansi stripping step fails
internally (the strip call on the byte sequence errors, or the stripped
bytes are not valid UTF-8), strip_ansi_codes_from_string returns the
original unmodified input string rather than failing the caller. -/
theorem c8_strip_returns_original_on_failure {β : Type}
    (stripStep : String → Except Unit β) (utf8Step : β → Except Unit String)
    (s : String)
    (h : stripStep s = Except.error () ∨
      ∃ b, stripStep s = Except.ok b ∧ utf8Step b = Except.error ()) :
    strip_ansi_codes_from_string stripStep utf8Step s = s := by
  unfold strip_ansi_codes_from_string
  rcases h with h | ⟨b, hb, hu⟩
  · rw [h]
  · simp only [hb, hu]

/-- Witness for c8: a strip collaborator that always fails makes the
wrapper return the original string, escape sequence included. -/
theorem c8_strip_returns_original_on_failure_witness :
    strip_ansi_codes_from_string (fun _ => (Except.error () : Except Unit String))
      (fun b => Except.ok b) "\x1b[31mred" = "\x1b[31mred" :=
  c8_strip_returns_original_on_failure _ _ _ (Or.inl rfl)

/-- Claim C9: the ansi stripper is idempotent, stripping twice equals
stripping once for every string, and it is the identity on every string
containing no escape character. -/
theorem c9_ansi_stripper_idempotent (s : String) :
    stripAnsiCodes (stripAnsiCodes s) = stripAnsiCodes s ∧
    ('\x1b' ∉ s.data → stripAnsiCodes s = s) := by
  constructor
  · rw [stripAnsiCodes_eq s, stripAnsiCodes_eq]
    show String.mk (stripAnsiAux StripState.ground (stripAnsiAux StripState.ground s.data)) = _
    rw [stripAnsiAux_ground_of_no_esc _ (stripAnsiAux_no_esc _ _)]
  · intro h
    rw [stripAnsiCodes_eq s, stripAnsiAux_ground_of_no_esc _ h]

/-- Witness for c9: stripping a clean string is the identity, and the
double strip of a colored string equals the single strip. -/
theorem c9_ansi_stripper_idempotent_witness :
    stripAnsiCodes "plain text" = "plain text" ∧
    stripAnsiCodes (stripAnsiCodes "\x1b[31mred\x1b[0m") =
      stripAnsiCodes "\x1b[31mred\x1b[0m" :=
  ⟨(c9_ansi_stripper_idempotent "plain text").2 (by decide),
   (c9_ansi_stripper_idempotent "\x1b[31mred\x1b[0m").1⟩

/-- An encoder that fails on signed integers and succeeds elsewhere,
exercising the record_json_value failure branch. -/
def failI64Encoder : JsonEncoder where
  encodeI64 := fun _ => Except.error "not json-serializable"
  encodeU64 := fun n => Except.ok (Json.num (Int.ofNat n))
  encodeBool := fun b => Except.ok (Json.bool b)
  encodeStr := fun s => Except.ok (Json.str s)

/-- A two-field event whose first field fails to encode under
failI64Encoder. -/
def evC2 : TracingEvent :=
  { level := TracingLevel.WARN, target := "svc::auth", module_path := none,
    fields := [{ name := "broken", value := FieldValue.i64 1 },
               { name := "msg", value := FieldValue.str "login failed" }] }

/-- A configuration with both options off. -/
def integC2 : TracingIntegration :=
  { strip_ansi_escapes := false, attach_stacktraces := false }

/-- Claim C2: when serializing one field value to json fails, the
visitor does not fail or abort the remaining visitation: that field has
no json_values entry, its display entry is still recorded (one display
entry per field), the failure is reported only through the side
diagnostic channel, and no error is surfaced to the caller of either
assembler, both of which produce a fully-formed record. -/
theorem c2_encode_failure_isolated (enc : JsonEncoder) (cur : Option Stacktrace)
    (event : TracingEvent) (integration : TracingIntegration) (name : String)
    (hmem : ∃ f ∈ event.fields, f.name = name)
    (hfail : ∀ f ∈ event.fields, f.name = name →
      ∃ e, serializationAttempt enc (FieldVisitorConfig.fromIntegration integration) f =
        Except.error e) :
    ((FieldVisitor.visit_event enc event
        (FieldVisitorConfig.fromIntegration integration)).1).display_values.length =
      event.fields.length ∧
    btreeGet ((FieldVisitor.visit_event enc event
        (FieldVisitorConfig.fromIntegration integration)).1).json_values name = none ∧
    (FieldVisitor.visit_event enc event
        (FieldVisitorConfig.fromIntegration integration)).2 ≠ [] ∧
    (breadcrumb_from_event enc event integration).message =
      some ((FieldVisitor.visit_event enc event
        (FieldVisitorConfig.fromIntegration integration)).1).message ∧
    (breadcrumb_from_event enc event integration).data =
      ((FieldVisitor.visit_event enc event
        (FieldVisitorConfig.fromIntegration integration)).1).json_values ∧
    (convert_tracing_event enc cur event integration).exception.length = 1 := by
  refine ⟨?_, ?_, ?_, rfl, rfl, rfl⟩
  · rw [visit_event_display]
    simp
  · rw [visit_event_json_get]
    exact jsonAfter_of_fail enc _ name event.fields hfail none
  · rcases hmem with ⟨f, hf, hname⟩
    rcases hfail f hf hname with ⟨e, he⟩
    rw [visit_event_diag]
    exact visitFields_diag_mem enc event.fields _ f e hf he

/-- Witness for c2: under failI64Encoder the "broken" i64 field of evC2
loses its json entry but both fields keep display entries, a diagnostic
is emitted and both assemblers still produce their records. -/
theorem c2_encode_failure_isolated_witness :
    ((FieldVisitor.visit_event failI64Encoder evC2
        (FieldVisitorConfig.fromIntegration integC2)).1).display_values.length =
      evC2.fields.length ∧
    btreeGet ((FieldVisitor.visit_event failI64Encoder evC2
        (FieldVisitorConfig.fromIntegration integC2)).1).json_values "broken" = none ∧
    (FieldVisitor.visit_event failI64Encoder evC2
        (FieldVisitorConfig.fromIntegration integC2)).2 ≠ [] ∧
    (breadcrumb_from_event failI64Encoder evC2 integC2).message =
      some ((FieldVisitor.visit_event failI64Encoder evC2
        (FieldVisitorConfig.fromIntegration integC2)).1).message ∧
    (breadcrumb_from_event failI64Encoder evC2 integC2).data =
      ((FieldVisitor.visit_event failI64Encoder evC2
        (FieldVisitorConfig.fromIntegration integC2)).1).json_values ∧
    (convert_tracing_event failI64Encoder none evC2 integC2).exception.length = 1 :=
  c2_encode_failure_isolated failI64Encoder none evC2 integC2 "broken"
    ⟨{ name := "broken", value := FieldValue.i64 1 }, by simp [evC2], rfl⟩
    (by
      intro f hf hname
      simp only [evC2, List.mem_cons, List.not_mem_nil, or_false] at hf
      rcases hf with rfl | rfl
      · exact ⟨"not json-serializable", rfl⟩
      · exact absurd hname (by decide))

/-- Claim C3: the diagnostic event built by convert_tracing_event has
exactly one exception entry; its type string is "[t] log event" when the
visitor captured log_target t and "[target] tracing event" with the
event source otherwise; its value is the joined display message and its
module is the event module path. -/
theorem c3_exactly_one_exception (enc : JsonEncoder) (cur : Option Stacktrace)
    (event : TracingEvent) (integration : TracingIntegration) :
    (convert_tracing_event enc cur event integration).exception.length = 1 ∧
    (∀ t, ((FieldVisitor.visit_event enc event
        (FieldVisitorConfig.fromIntegration integration)).1).log_target = some t →
      (convert_tracing_event enc cur event integration).exception.map SentryException.ty =
        ["[" ++ t ++ "] log event"]) ∧
    (((FieldVisitor.visit_event enc event
        (FieldVisitorConfig.fromIntegration integration)).1).log_target = none →
      (convert_tracing_event enc cur event integration).exception.map SentryException.ty =
        ["[" ++ event.target ++ "] tracing event"]) ∧
    (convert_tracing_event enc cur event integration).exception.map SentryException.value =
      [some ((FieldVisitor.visit_event enc event
        (FieldVisitorConfig.fromIntegration integration)).1).message] ∧
    (convert_tracing_event enc cur event integration).exception.map
      (fun ex => ex.module) = [event.module_path] := by
  refine ⟨rfl, ?_, ?_, rfl, rfl⟩
  · intro t ht
    simp [convert_tracing_event, ht]
  · intro ht
    simp [convert_tracing_event, ht]

/-- An event carrying a log.target field with string value "db". -/
def evC3a : TracingEvent :=
  { level := TracingLevel.INFO, target := "svc::module", module_path := some "svc",
    fields := [{ name := "log.target", value := FieldValue.str "db" }] }

/-- An event without a log.target field, with source "svc::module". -/
def evC3b : TracingEvent :=
  { level := TracingLevel.INFO, target := "svc::module", module_path := none,
    fields := [] }

/-- Witness for c3: evC3a yields exception type "[db] log event" and
evC3b yields "[svc::module] tracing event". -/
theorem c3_exactly_one_exception_witness :
    (convert_tracing_event serdeJson none evC3a
        ⟨false, false⟩).exception.map SentryException.ty = ["[db] log event"] ∧
    (convert_tracing_event serdeJson none evC3b
        ⟨false, false⟩).exception.map SentryException.ty = ["[svc::module] tracing event"] :=
  ⟨(c3_exactly_one_exception serdeJson none evC3a ⟨false, false⟩).2.1 "db" (by decide),
   (c3_exactly_one_exception serdeJson none evC3b ⟨false, false⟩).2.2.1 (by decide)⟩

/-- An event with a repeated field name. -/
def evC5 : TracingEvent :=
  { level := TracingLevel.INFO, target := "svc", module_path := none,
    fields := [{ name := "k", value := FieldValue.i64 1 },
               { name := "k", value := FieldValue.i64 2 }] }

/-- Claim C5: for an event with repeated field names, only the last json
value recorded for a given name survives in json_values, while every
occurrence still appears as its own entry in display_values. -/
theorem c5_last_json_value_wins (enc : JsonEncoder) (event : TracingEvent)
    (config : FieldVisitorConfig) (name : String) (fs₁ fs₂ : List TracingField)
    (f : TracingField) (j : Json)
    (hsplit : event.fields = fs₁ ++ f :: fs₂)
    (hname : f.name = name)
    (hlast : ∀ g ∈ fs₂, g.name ≠ name)
    (hser : serializationAttempt enc config f = Except.ok j) :
    btreeGet ((FieldVisitor.visit_event enc event config).1).json_values name = some j ∧
    ((FieldVisitor.visit_event enc event config).1).display_values =
      event.fields.map (displayRendering config) :=
  ⟨visit_event_json_last enc event config name fs₁ fs₂ f j hsplit hname hlast hser,
   visit_event_display enc event config⟩

/-- Witness for c5: with two "k" fields valued 1 then 2, json_values
holds the number 2 under "k" while both display entries are kept. -/
theorem c5_last_json_value_wins_witness :
    btreeGet ((FieldVisitor.visit_event serdeJson evC5
        { strip_ansi_escapes := false }).1).json_values "k" = some (Json.num 2) ∧
    ((FieldVisitor.visit_event serdeJson evC5
        { strip_ansi_escapes := false }).1).display_values =
      evC5.fields.map (displayRendering { strip_ansi_escapes := false }) :=
  c5_last_json_value_wins serdeJson evC5 { strip_ansi_escapes := false } "k"
    [{ name := "k", value := FieldValue.i64 1 }] []
    { name := "k", value := FieldValue.i64 2 } (Json.num 2) rfl rfl (by simp) rfl

/-- An event whose single field is a string-valued log.target. -/
def evC6 : TracingEvent :=
  { level := TracingLevel.INFO, target := "svc", module_path := none,
    fields := [{ name := "log.target", value := FieldValue.str "db" }] }

/-- Claim C6: the log_target slot is an optional string set exactly once
when a string-valued field named "log.target" is encountered, holding
its (possibly ansi-stripped) string value, while the field is still
recorded normally into json_values and display_values. -/
theorem c6_log_target_capture (enc : JsonEncoder) (event : TracingEvent)
    (config : FieldVisitorConfig) (s : String) (j : Json)
    (fs₁ fs₂ : List TracingField)
    (hsplit : event.fields =
      fs₁ ++ { name := "log.target", value := FieldValue.str s } :: fs₂)
    (hother₁ : ∀ g ∈ fs₁, g.name ≠ "log.target")
    (hother₂ : ∀ g ∈ fs₂, g.name ≠ "log.target")
    (hser : serializationAttempt enc config
      { name := "log.target", value := FieldValue.str s } = Except.ok j) :
    ((FieldVisitor.visit_event enc event config).1).log_target =
      some (if config.strip_ansi_escapes then stripAnsiCodes s else s) ∧
    btreeGet ((FieldVisitor.visit_event enc event config).1).json_values
      "log.target" = some j ∧
    ((FieldVisitor.visit_event enc event config).1).display_values =
      event.fields.map (displayRendering config) := by
  refine ⟨?_,
    visit_event_json_last enc event config "log.target" fs₁ fs₂ _ j hsplit rfl hother₂ hser,
    visit_event_display enc event config⟩
  rw [visit_event_log_target, hsplit, logTargetAfter_append]
  simp only [logTargetAfter]
  rw [logTargetAfter_of_skip config fs₂ (fun g hg s' _ => hother₂ g hg)]
  simp [logTargetStep]

/-- Witness for c6: the "db" log.target field of evC6 is captured into
the log_target slot and also recorded as a json string and a display
entry. -/
theorem c6_log_target_capture_witness :
    ((FieldVisitor.visit_event serdeJson evC6
        { strip_ansi_escapes := false }).1).log_target = some "db" ∧
    btreeGet ((FieldVisitor.visit_event serdeJson evC6
        { strip_ansi_escapes := false }).1).json_values "log.target" =
      some (Json.str "db") ∧
    ((FieldVisitor.visit_event serdeJson evC6
        { strip_ansi_escapes := false }).1).display_values =
      evC6.fields.map (displayRendering { strip_ansi_escapes := false }) :=
  c6_log_target_capture serdeJson evC6 { strip_ansi_escapes := false } "db"
    (Json.str "db") [] [] rfl (by simp) (by simp) rfl

/-- An event whose single field is named log.target but carries an
unsigned integer. -/
def evC10 : TracingEvent :=
  { level := TracingLevel.INFO, target := "svc", module_path := none,
    fields := [{ name := "log.target", value := FieldValue.u64 7 }] }

/-- Claim C10: the log_target slot is set only by string-valued fields:
when every field named "log.target" carries a signed integer, unsigned
integer, boolean, structured error, or debug-formatted value, the slot
stays none, while those fields are still recorded normally into
display_values and json_values. -/
theorem c10_log_target_only_strings (enc : JsonEncoder) (event : TracingEvent)
    (config : FieldVisitorConfig)
    (h : ∀ f ∈ event.fields, f.name = "log.target" →
      ∀ s, f.value ≠ FieldValue.str s) :
    ((FieldVisitor.visit_event enc event config).1).log_target = none ∧
    ((FieldVisitor.visit_event enc event config).1).display_values =
      event.fields.map (displayRendering config) ∧
    (∀ (fs₁ fs₂ : List TracingField) (f : TracingField) (j : Json),
      event.fields = fs₁ ++ f :: fs₂ → f.name = "log.target" →
      (∀ g ∈ fs₂, g.name ≠ "log.target") →
      serializationAttempt enc config f = Except.ok j →
      btreeGet ((FieldVisitor.visit_event enc event config).1).json_values
        "log.target" = some j) := by
  refine ⟨?_, visit_event_display enc event config, ?_⟩
  · rw [visit_event_log_target]
    exact logTargetAfter_of_skip config event.fields
      (fun f hf s hval hname => h f hf hname s hval) none
  · intro fs₁ fs₂ f j hsplit hname hlast hser
    exact visit_event_json_last enc event config "log.target" fs₁ fs₂ f j
      hsplit hname hlast hser

/-- Witness for c10: a u64-valued log.target field leaves log_target at
none but is still recorded as a json number under "log.target". -/
theorem c10_log_target_only_strings_witness :
    ((FieldVisitor.visit_event serdeJson evC10
        { strip_ansi_escapes := false }).1).log_target = none ∧
    btreeGet ((FieldVisitor.visit_event serdeJson evC10
        { strip_ansi_escapes := false }).1).json_values "log.target" =
      some (Json.num 7) := by
  have h := c10_log_target_only_strings serdeJson evC10 { strip_ansi_escapes := false }
    (by
      intro f hf hname s hval
      simp only [evC10, List.mem_cons, List.not_mem_nil, or_false] at hf
      subst hf
      exact FieldValue.noConfusion hval)
  exact ⟨h.1, h.2.2 [] [] { name := "log.target", value := FieldValue.u64 7 }
    (Json.num 7) rfl rfl (by simp) rfl⟩

end SentryTracing
